import Mathlib

/-!
Verification of the tag-derivation core of k8s-pvc-tagger.

This file shallowly embeds the tag computation, sanitization and dispatch
logic of the repository (kubernetes.go, gcp.go, azure.go, main.go) and
proves or refutes the specified properties against that embedding.

Modelling conventions:
* Go `map[string]string` values are embedded as association lists
  (`List (String × String)`); `upsertA` mirrors Go map assignment
  `m[k] = v` (replace if the key exists, append otherwise).  Go map
  iteration order is unspecified; list order stands in for one such order.
* Go strings are embedded as Lean `String`/`List Char`; byte-level
  operations (`len`, slicing) coincide with the character-level embedding
  on ASCII data, and Go's Unicode case folding is modelled on the ASCII
  range, which is the range the validated constants live in.
* Fallible Go functions return `Option`/`Except`; a Go runtime panic
  (out-of-range index) is modelled as an explicit result constructor.
-/

/-- ASCII lower-casing of one character, as Go's `strings.ToLower`
performs on the ASCII range. -/
def asciiLower (c : Char) : Char :=
  if 65 ≤ c.toNat ∧ c.toNat ≤ 90 then Char.ofNat (c.toNat + 32) else c

/-- Lower-case every character of a string (`strings.ToLower` on ASCII). -/
def lowerStr (s : List Char) : List Char :=
  s.map asciiLower

/-- Association-list update with Go map-assignment semantics: `m[k] = v`
replaces the binding if `k` is present and appends it otherwise. -/
def upsertA {α β : Type} [DecidableEq α] (m : List (α × β)) (k : α) (v : β) :
    List (α × β) :=
  if (m.lookup k).isSome then m.map (fun p => if p.1 = k then (k, v) else p)
  else m ++ [(k, v)]

/-- A tag map: Go `map[string]string` as an association list. -/
abbrev Tags := List (String × String)

/-- Go `v, ok := m[k]` membership test. -/
def hasKey (m : Tags) (k : String) : Bool :=
  (m.lookup k).isSome

/-- isValidTagName from kubernetes.go: a tag name is rejected when its
lower-cased form starts with "kubernetes.io", equals "name", or equals
"kubernetescluster". -/
def isValidTagName (name : String) : Bool :=
  if List.isPrefixOf ("kubernetes.io").data (lowerStr name.data) then false
  else if lowerStr name.data = ("name").data then false
  else if lowerStr name.data = ("kubernetescluster").data then false
  else true

/-- The claim C4 restated with propositional connectives. -/
theorem isValidTagName_false_iff (k : String) :
    isValidTagName k = false ↔
      (List.isPrefixOf ("kubernetes.io").data (lowerStr k.data) = true ∨
       lowerStr k.data = ("name").data ∨
       lowerStr k.data = ("kubernetescluster").data) := by
  unfold isValidTagName
  split
  · next h => simp [h]
  · next h =>
    split
    · next h2 => simp [h2]
    · next h2 =>
      split
      · next h3 => simp [h3]
      · next h3 =>
        simp only [Bool.true_eq_false, false_iff]
        push_neg
        exact ⟨by simpa using h, h2, h3⟩

example : isValidTagName "foo" = true := by decide
example : isValidTagName "Name" = false := by decide
example : isValidTagName "KubernetesCluster" = false := by decide
example : isValidTagName "kubernetes.io/created-for" = false := by decide
example : isValidTagName "kubernetes.iota" = false := by decide

/-- Whitespace recognized by the trimming of key/value segments
(`strings.TrimSpace` on the ASCII range). -/
def isSpaceChar (c : Char) : Bool :=
  c = ' ' ∨ c = '\t' ∨ c = '\n' ∨ c = '\r'

/-- Trim leading and trailing whitespace from a character list. -/
def trimSpace (l : List Char) : List Char :=
  ((l.dropWhile isSpaceChar).reverse.dropWhile isSpaceChar).reverse

/-- Split a character list on every occurrence of `sep`, Go
`strings.Split` with a one-character separator: the empty input yields
one empty segment, and doubled separators yield empty segments. -/
def splitSep (sep : Char) (l : List Char) : List (List Char) :=
  l.foldr
    (fun c acc =>
      if c = sep then [] :: acc
      else
        match acc with
        | h :: t => (c :: h) :: t
        | [] => [[c]])
    [[]]

/-- Split at the first '=' only, Go `strings.SplitN(s, "=", 2)`: `none`
when the input has no '=' (Go returns a one-element slice, which the csv
parser skips). -/
def splitFirstEq : List Char → Option (List Char × List Char)
  | [] => none
  | c :: rest =>
    if c = '=' then some ([], rest)
    else
      match splitFirstEq rest with
      | some (a, b) => some (c :: a, b)
      | none => none

/-- parseCsv from main.go: split the value on ',', skip empty segments,
split each remaining segment once at the first '=', trim whitespace around
key and value, and drop pairs whose key or value is empty or whose segment
holds no '='. -/
def parseCsv (value : String) : Tags :=
  (splitSep ',' value.data).foldl
    (fun tags s =>
      if s.length = 0 then tags
      else
        match splitFirstEq s with
        | none => tags
        | some (k0, v0) =>
          let k := trimSpace k0
          let v := trimSpace v0
          if k = [] ∨ v = [] then tags
          else upsertA tags (String.mk k) (String.mk v))
    []

/-- Claim C6: the six normative parseCsv evaluations from the spec. -/
theorem parseCsv_examples :
    parseCsv "" = [] ∧
    parseCsv "touge=me" = [("touge", "me")] ∧
    parseCsv "foo=bar,,touge=me" = [("foo", "bar"), ("touge", "me")] ∧
    parseCsv "foo" = [] ∧
    parseCsv "=foo" = [] ∧
    parseCsv "foo=" = [] := by
  decide

example : parseCsv " foo = bar ,x=y" = [("foo", "bar"), ("x", "y")] := by decide

/-- Default value of the annotation-prefix flag (main.go). -/
def defaultAnnPfx : String := "k8s-pvc-tagger"

/-- The hard-wired legacy annotation prefix (main.go). -/
def legacyAnnPfx : String := "aws-ebs-tagger"

/-- Process-wide configuration read by buildTags (main.go globals
`annotationPrefix`, `defaultTags`, `tagFormat`, `allowAllTags`,
`copyLabels`). -/
structure Config where
  annPfx : String
  defaultTags : Tags
  tagFmt : String
  allowAllTags : Bool
  copyLabels : List String

/-- The projection of a PersistentVolumeClaim read by the core: metadata
plus the update-guard fields. `annots` is the PVC's metadata.annotations
map, `hasDeletionTS` whether `GetDeletionTimestamp() != nil`. -/
structure PVC where
  name : String
  namespc : String
  labels : Tags
  annots : Tags
  resourceVersion : String
  volumeName : String
  hasDeletionTS : Bool

/-- The data bound to a tag-value template (struct TagTemplate in
kubernetes.go): Name, Namespace, Labels, Annotations of the PVC. -/
structure TagTemplate where
  name : String
  namespc : String
  labels : Tags
  annots : Tags

/-- Template data built from a PVC (renderTagTemplates, kubernetes.go). -/
def tplOf (pvc : PVC) : TagTemplate :=
  ⟨pvc.name, pvc.namespc, pvc.labels, pvc.annots⟩

/-- A template engine: given the bound data and a tag value, return the
rendered value, or `none` when parsing or execution fails.  Go's
html/template engine is a collaborator of renderTagTemplates; it is
passed in as a parameter so that the rendering-independent properties
hold for the real engine as well. -/
abbrev RenderFn := TagTemplate → String → Option String

/-- renderTagTemplates from kubernetes.go: for every entry, try to parse
and execute the value as a template against the PVC's data; on success
store the rendered value under the same key, on failure `continue`, i.e.
leave the entry untouched.  Keys are never changed. -/
def renderTagTemplates (render : RenderFn) (pvc : PVC) (tags : Tags) : Tags :=
  tags.map (fun p =>
    match render (tplOf pvc) p.2 with
    | some r => (p.1, r)
    | none => p)

/-- A JSON decoder for the tags annotation: returns the map contents the
decode attempt leaves in `customTags` (empty when decoding fails at the
start).  `encoding/json` is external; buildTags is parameterized over it. -/
abbrev JsonFn := String → Tags

/-- One filtered map merge step shared by the three tag sources in
buildTags: `tags[k] = v` unless the name is invalid and allowAllTags is
off. -/
def mergeTag (cfg : Config) (acc : Tags) (kv : String × String) : Tags :=
  if isValidTagName kv.1 ∨ cfg.allowAllTags then upsertA acc kv.1 kv.2 else acc

/-- buildTags from kubernetes.go: ignore-annotation short-circuit (current
prefix always, legacy prefix only when the prefix is unchanged), then the
filtered merge of default tags, copied labels and annotation custom tags
(json or csv), then template rendering of the values. -/
def buildTags (render : RenderFn) (jsonParse : JsonFn) (cfg : Config)
    (pvc : PVC) : Tags :=
  let annots := pvc.annots
  if hasKey annots (cfg.annPfx ++ "/ignore") then
    renderTagTemplates render pvc []
  else if cfg.annPfx = defaultAnnPfx ∧ hasKey annots (legacyAnnPfx ++ "/ignore") then
    renderTagTemplates render pvc []
  else
    let tags1 := cfg.defaultTags.foldl (mergeTag cfg) []
    let tags2 :=
      if 0 < cfg.copyLabels.length then
        pvc.labels.foldl
          (fun acc kv =>
            if cfg.copyLabels.head? = some "*" ∨ cfg.copyLabels.contains kv.1 then
              mergeTag cfg acc kv
            else acc)
          tags1
      else tags1
    let tagStr? := annots.lookup (cfg.annPfx ++ "/tags")
    let legacyStr? :=
      if cfg.annPfx = defaultAnnPfx then annots.lookup (legacyAnnPfx ++ "/tags")
      else none
    match tagStr?, legacyStr? with
    | none, none => renderTagTemplates render pvc tags2
    | _, _ =>
      let tagString := match tagStr?, legacyStr? with
        | some s, _ => s
        | none, some s => s
        | none, none => ""
      let customTags :=
        if cfg.tagFmt = "csv" then parseCsv tagString else jsonParse tagString
      renderTagTemplates render pvc (customTags.foldl (mergeTag cfg) tags2)

/-- All keys of a tag map pass the name validator. -/
def keysValid (m : Tags) : Prop :=
  ∀ kv ∈ m, isValidTagName kv.1 = true

/-- Membership in an upsert result comes from the new binding or the old
map. -/
theorem mem_upsertA {α β : Type} [DecidableEq α] {m : List (α × β)} {k : α}
    {v : β} {p : α × β} (h : p ∈ upsertA m k v) : p = (k, v) ∨ p ∈ m := by
  unfold upsertA at h
  split at h
  · rcases List.mem_map.mp h with ⟨q, hq, rfl⟩
    by_cases hk : q.1 = k
    · left
      simp [hk]
    · right
      simpa [hk] using hq
  · rcases List.mem_append.mp h with h' | h'
    · right
      exact h'
    · left
      simpa using h'

/-- The filtered merge step keeps keysValid when allowAllTags is off. -/
theorem keysValid_mergeTag {cfg : Config} (hall : cfg.allowAllTags = false)
    {acc : Tags} (hacc : keysValid acc) (kv : String × String) :
    keysValid (mergeTag cfg acc kv) := by
  unfold mergeTag
  split
  · next hok =>
    intro p hp
    rcases mem_upsertA hp with rfl | hp'
    · rcases hok with hok | hok
      · exact hok
      · rw [hall] at hok
        cases hok
    · exact hacc p hp'
  · exact hacc

/-- Folding a keysValid-preserving step preserves keysValid. -/
theorem keysValid_foldl {f : Tags → (String × String) → Tags}
    (hf : ∀ acc kv, keysValid acc → keysValid (f acc kv)) :
    ∀ (l : Tags) (acc : Tags), keysValid acc → keysValid (l.foldl f acc) := by
  intro l
  induction l with
  | nil => intro acc h; exact h
  | cons kv t ih => intro acc h; exact ih _ (hf acc kv h)

/-- Template rendering never changes keys, so it preserves keysValid. -/
theorem keysValid_renderTagTemplates (render : RenderFn) (pvc : PVC)
    {m : Tags} (h : keysValid m) : keysValid (renderTagTemplates render pvc m) := by
  intro p hp
  rcases List.mem_map.mp hp with ⟨q, hq, rfl⟩
  have := h q hq
  cases hr : render (tplOf pvc) q.2 <;> simp [hr, this]

/-- Claim C5: with allowAllTags false, every key produced by buildTags
passes isValidTagName; all three sources are filtered and rendering keeps
keys unchanged. -/
theorem buildTags_keys_valid (render : RenderFn) (jsonParse : JsonFn)
    (cfg : Config) (pvc : PVC) (hall : cfg.allowAllTags = false) :
    ∀ kv ∈ buildTags render jsonParse cfg pvc, isValidTagName kv.1 = true := by
  have hnil : keysValid [] := by intro p hp; cases hp
  have hmerge := fun acc kv h => @keysValid_mergeTag cfg hall acc h kv
  unfold buildTags
  dsimp only
  split
  · exact keysValid_renderTagTemplates _ _ hnil
  · split
    · exact keysValid_renderTagTemplates _ _ hnil
    · have h1 : keysValid (cfg.defaultTags.foldl (mergeTag cfg) []) :=
        keysValid_foldl hmerge _ _ hnil
      have h2 : keysValid (if 0 < cfg.copyLabels.length then
          pvc.labels.foldl
            (fun acc kv =>
              if cfg.copyLabels.head? = some "*" ∨ cfg.copyLabels.contains kv.1 then
                mergeTag cfg acc kv
              else acc)
            (cfg.defaultTags.foldl (mergeTag cfg) [])
        else cfg.defaultTags.foldl (mergeTag cfg) []) := by
        split
        · refine keysValid_foldl ?_ _ _ h1
          intro acc kv h
          split
          · exact keysValid_mergeTag hall h kv
          · exact h
        · exact h1
      split
      · exact keysValid_renderTagTemplates _ _ h2
      · exact keysValid_renderTagTemplates _ _ (keysValid_foldl hmerge _ _ h2)

/-- A render engine that always fails (used to instantiate theorems at
concrete inputs). -/
def renderNone : RenderFn := fun _ _ => none

/-- A JSON decoder that always yields the empty map. -/
def jsonEmpty : JsonFn := fun _ => []

/-- Sample configuration: default tags include a reserved key. -/
def cfgEx5 : Config :=
  ⟨defaultAnnPfx, [("kubernetes.io/created-for", "v"), ("team", "v")], "json",
    false, []⟩

/-- Sample PVC without annotations. -/
def pvcEx5 : PVC := ⟨"my-pvc", "ns", [], [], "1", "pv-1", false⟩

/-- Witness for C5 at a concrete configuration. -/
theorem buildTags_keys_valid_witness : isValidTagName "team" = true :=
  buildTags_keys_valid renderNone jsonEmpty cfgEx5 pvcEx5 rfl ("team", "v")
    (by decide)

/-- Claim C3: when the annotations contain annotationPrefix + "/ignore",
buildTags returns the empty map whatever the rest of the configuration,
labels or annotations hold. -/
theorem buildTags_ignore_empty (render : RenderFn) (jsonParse : JsonFn)
    (cfg : Config) (pvc : PVC)
    (h : hasKey pvc.annots (cfg.annPfx ++ "/ignore") = true) :
    buildTags render jsonParse cfg pvc = [] := by
  unfold buildTags
  dsimp only
  rw [if_pos h]
  rfl

/-- Sample configuration for the ignore short-circuit: default tags and a
tags annotation are both present. -/
def cfgEx3 : Config := ⟨defaultAnnPfx, [("foo", "bar")], "json", false, ["*"]⟩

/-- Sample PVC carrying the ignore annotation plus tags and labels. -/
def pvcEx3 : PVC :=
  ⟨"my-pvc", "ns", [("TeamID", "1234")],
    [("k8s-pvc-tagger/ignore", "exists"), ("k8s-pvc-tagger/tags", "x=y")],
    "1", "pv-1", false⟩

/-- Witness for C3 at a concrete PVC and configuration. -/
theorem buildTags_ignore_empty_witness :
    buildTags renderNone jsonEmpty cfgEx3 pvcEx3 = [] :=
  buildTags_ignore_empty renderNone jsonEmpty cfgEx3 pvcEx3 (by decide)

/-- Claim C7: renderTagTemplates is fail-soft.  For any engine, any PVC
and any entry of the tag map, the stored value is the rendered value on
success and the untouched original literal on parse or execution failure. -/
theorem renderTagTemplates_failSoft (render : RenderFn) (pvc : PVC)
    (tags : Tags) (k v : String) (h : tags.lookup k = some v) :
    (renderTagTemplates render pvc tags).lookup k =
      some ((render (tplOf pvc) v).getD v) := by
  induction tags with
  | nil => cases h
  | cons p t ih =>
    obtain ⟨a, b⟩ := p
    by_cases hk : k = a
    · subst hk
      have hv : b = v := by simpa [List.lookup] using h
      subst hv
      cases hr : render (tplOf pvc) b <;>
        simp [renderTagTemplates, List.lookup, hr]
    · have hb : (k == a) = false := by simpa using hk
      have h' : t.lookup k = some v := by simpa [List.lookup, hb] using h
      cases hr : render (tplOf pvc) b <;>
        simpa [renderTagTemplates, List.lookup, hb, hr] using ih h' 

/-- Witness for C7: a failing engine leaves the malformed template value
untouched. -/
theorem renderTagTemplates_failSoft_witness :
    (renderTagTemplates renderNone pvcEx5
        [("foo", "\x7b\x7b .Blah \x7d\x7d")]).lookup "foo" =
      some "\x7b\x7b .Blah \x7d\x7d" :=
  renderTagTemplates_failSoft renderNone pvcEx5
    [("foo", "\x7b\x7b .Blah \x7d\x7d")] "foo" "\x7b\x7b .Blah \x7d\x7d" rfl

/-- GCP labels as character-level association lists (keys and values are
Go strings). -/
abbrev GStr := List Char

/-- GCP tag maps. -/
abbrev GTags := List (GStr × GStr)

/-- The per-character replacement of sanitizeKeyForGCP (gcp.go):
strings.NewReplacer("/", "_", ".", "-"). -/
def replChar (c : Char) : Char :=
  if c = '/' then '_' else if c = '.' then '-' else c

/-- Membership in the cutset of strings.TrimRight(key, "-_"). -/
def isDashUnd (c : Char) : Bool :=
  c = '-' ∨ c = '_'

/-- strings.TrimRight(key, "-_"): drop trailing '-' and '_' characters. -/
def trimRightDU (l : GStr) : GStr :=
  (l.reverse.dropWhile isDashUnd).reverse

/-- Does the string end with '-' or '_'? -/
def endsDashUnd (l : GStr) : Bool :=
  match l.reverse with
  | [] => false
  | c :: _ => isDashUnd c

/-- sanitizeKeyForGCP from gcp.go: lowercase, replace '/' and '.', trim
trailing '-'/'_', then truncate to 63 characters. -/
def sanitizeKeyForGCP (k : GStr) : GStr :=
  (trimRightDU ((k.map asciiLower).map replChar)).take 63

/-- sanitizeValueForGCP from gcp.go: truncate to 63 characters. -/
def sanitizeValueForGCP (v : GStr) : GStr :=
  v.take 63

/-- sanitizeLabelsForGCP from gcp.go: rebuild the map with sanitized keys
and values (`newLabels[sanitizeKeyForGCP k] = sanitizeValueForGCP v`). -/
def sanitizeLabelsForGCP (m : GTags) : GTags :=
  m.foldl
    (fun acc kv => upsertA acc (sanitizeKeyForGCP kv.1) (sanitizeValueForGCP kv.2))
    []

/-- A 64-character key whose first 63 characters end in '-': truncation
to 63 characters reintroduces a trailing '-' that a second sanitization
pass trims away. -/
def gcpBadKey : GStr := List.replicate 62 'a' ++ ['-', 'a']

/-- Counterexample to claim C2: the GCP sanitizer is not idempotent.  On
the 64-character key above the first pass yields a 63-character key ending
in '-', and the second pass trims that dash, giving a different map. -/
theorem sanitizeGCP_not_idempotent :
    sanitizeLabelsForGCP (sanitizeLabelsForGCP [(gcpBadKey, [])]) ≠
      sanitizeLabelsForGCP [(gcpBadKey, [])] := by
  decide

example :
    sanitizeLabelsForGCP [(gcpBadKey, [])] =
      [(List.replicate 62 'a' ++ ['-'], [])] := by decide

example :
    sanitizeLabelsForGCP (sanitizeLabelsForGCP [(gcpBadKey, [])]) =
      [(List.replicate 62 'a', [])] := by decide

/-- Evaluation of Char.ofNat at a valid code point. -/
theorem charToNat_ofNat_valid {n : Nat} (h : n.isValidChar) :
    (Char.ofNat n).toNat = n := by
  unfold Char.ofNat
  rw [dif_pos h]
  rfl

/-- ASCII lower-casing is idempotent. -/
theorem asciiLower_idem (c : Char) : asciiLower (asciiLower c) = asciiLower c := by
  unfold asciiLower
  split
  · next h =>
    have hv : (c.toNat + 32).isValidChar := by
      left
      omega
    rw [charToNat_ofNat_valid hv]
    rw [if_neg (by omega)]
  · rfl

/-- The character replacement of the GCP key sanitizer is idempotent. -/
theorem replChar_idem (c : Char) : replChar (replChar c) = replChar c := by
  by_cases h1 : c = '/'
  · subst h1; decide
  · by_cases h2 : c = '.'
    · subst h2; decide
    · simp [replChar, h1, h2]

/-- Replacement keeps lower-cased characters lower-cased. -/
theorem asciiLower_replChar (c : Char) :
    asciiLower (replChar (asciiLower c)) = replChar (asciiLower c) := by
  set d := asciiLower c with hd
  by_cases h1 : d = '/'
  · rw [h1]; decide
  · by_cases h2 : d = '.'
    · rw [h2]; decide
    · rw [show replChar d = d from by simp [replChar, h1, h2]]
      rw [hd]
      exact asciiLower_idem c

/-- Characters surviving trimRightDU come from the input. -/
theorem mem_of_mem_trimRightDU {c : Char} {l : GStr} (h : c ∈ trimRightDU l) :
    c ∈ l := by
  unfold trimRightDU at h
  rw [List.mem_reverse] at h
  have hsub : List.Sublist (l.reverse.dropWhile isDashUnd) l.reverse :=
    List.dropWhile_sublist isDashUnd
  have := hsub.mem h
  rwa [List.mem_reverse] at this

/-- Every character of a sanitized GCP key is a fixed point of both the
lower-casing and the replacement. -/
theorem sanitizeKeyForGCP_chars {c : Char} {k : GStr}
    (h : c ∈ sanitizeKeyForGCP k) : asciiLower c = c ∧ replChar c = c := by
  unfold sanitizeKeyForGCP at h
  have h1 := mem_of_mem_trimRightDU (List.mem_of_mem_take h)
  rw [List.map_map, List.mem_map] at h1
  obtain ⟨c0, _, rfl⟩ := h1
  exact ⟨asciiLower_replChar c0, replChar_idem (asciiLower c0)⟩

/-- A list none of whose characters move under f is fixed by map f. -/
theorem map_fixed {f : Char → Char} {l : GStr} (h : ∀ c ∈ l, f c = c) :
    l.map f = l := by
  induction l with
  | nil => rfl
  | cons c t ih =>
    simp only [List.map_cons, h c (List.mem_cons_self c t)]
    rw [ih (fun x hx => h x (List.mem_cons_of_mem c hx))]

/-- Strings not ending in '-' or '_' are fixed by trimRightDU. -/
theorem trimRightDU_fixed {l : GStr} (h : endsDashUnd l = false) :
    trimRightDU l = l := by
  unfold trimRightDU
  unfold endsDashUnd at h
  cases hrev : l.reverse with
  | nil =>
    have : l = [] := by simpa using congrArg List.reverse hrev
    simp [this]
  | cons c t =>
    rw [hrev] at h
    have h' : isDashUnd c = false := h
    rw [List.dropWhile_cons_of_neg (by simp [h']), ← hrev, List.reverse_reverse]

/-- Sanitized GCP keys have at most 63 characters. -/
theorem sanitizeKeyForGCP_length (k : GStr) :
    (sanitizeKeyForGCP k).length ≤ 63 := by
  unfold sanitizeKeyForGCP
  rw [List.length_take]
  exact Nat.min_le_left _ _

/-- The key sanitizer fixes strings made of fixed characters that are
short enough and do not end in a trimmed character. -/
theorem sanitizeKeyForGCP_fixed {s : GStr}
    (hchars : ∀ c ∈ s, asciiLower c = c ∧ replChar c = c)
    (hlen : s.length ≤ 63) (hend : endsDashUnd s = false) :
    sanitizeKeyForGCP s = s := by
  unfold sanitizeKeyForGCP
  rw [map_fixed (fun c hc => (hchars c hc).1)]
  rw [map_fixed (fun c hc => (hchars c hc).2)]
  rw [trimRightDU_fixed hend]
  exact List.take_of_length_le hlen

/-- The GCP key sanitizer is idempotent on keys whose sanitized form does
not end in '-' or '_'. -/
theorem sanitizeKeyForGCP_idem {k : GStr}
    (h : endsDashUnd (sanitizeKeyForGCP k) = false) :
    sanitizeKeyForGCP (sanitizeKeyForGCP k) = sanitizeKeyForGCP k :=
  sanitizeKeyForGCP_fixed (fun _ hc => sanitizeKeyForGCP_chars hc)
    (sanitizeKeyForGCP_length k) h

/-- The GCP value sanitizer is idempotent. -/
theorem sanitizeValueForGCP_idem (v : GStr) :
    sanitizeValueForGCP (sanitizeValueForGCP v) = sanitizeValueForGCP v := by
  unfold sanitizeValueForGCP
  rw [List.take_take]
  simp

/-- Lookup misses exactly the keys that are absent. -/
theorem lookup_eq_none_iff {α β : Type} [DecidableEq α]
    {m : List (α × β)} {k : α} :
    m.lookup k = none ↔ k ∉ m.map Prod.fst := by
  induction m with
  | nil => simp [List.lookup]
  | cons p t ih =>
    obtain ⟨a, b⟩ := p
    by_cases hk : k = a
    · subst hk
      simp [List.lookup]
    · have hb : (k == a) = false := by simpa using hk
      simp [List.lookup, hb, hk, ih]

/-- The keys of a map are pairwise distinct. -/
def keysNodup {α β : Type} (m : List (α × β)) : Prop :=
  (m.map Prod.fst).Nodup

/-- Go map assignment keeps keys distinct. -/
theorem keysNodup_upsertA {α β : Type} [DecidableEq α]
    {m : List (α × β)} (h : keysNodup m) (k : α) (v : β) :
    keysNodup (upsertA m k v) := by
  unfold upsertA
  split
  · unfold keysNodup at h ⊢
    rw [List.map_map]
    have heq : ∀ p ∈ m,
        (Prod.fst ∘ fun q => if q.1 = k then (k, v) else q) p = Prod.fst p := by
      intro p _
      by_cases hpk : p.1 = k <;> simp [hpk, Function.comp]
    rw [List.map_congr_left heq]
    exact h
  · next hnone =>
    unfold keysNodup at h ⊢
    rw [List.map_append]
    have hkn : k ∉ m.map Prod.fst := by
      rw [← lookup_eq_none_iff]
      cases hl : m.lookup k with
      | none => rfl
      | some w => exact absurd (by simp [hl]) hnone
    rw [List.nodup_append]
    refine ⟨h, List.nodup_singleton _, ?_⟩
    intro x hx hx1
    simp only [List.map_cons, List.map_nil, List.mem_singleton] at hx1
    subst hx1
    exact hkn hx

/-- Entries of the sanitized GCP map are images of input entries. -/
theorem mem_foldl_gcp :
    ∀ (l acc : GTags) (p : GStr × GStr),
      p ∈ l.foldl
        (fun acc kv =>
          upsertA acc (sanitizeKeyForGCP kv.1) (sanitizeValueForGCP kv.2)) acc →
      p ∈ acc ∨ ∃ kv ∈ l, p = (sanitizeKeyForGCP kv.1, sanitizeValueForGCP kv.2) := by
  intro l
  induction l with
  | nil => intro acc p hp; exact Or.inl hp
  | cons kv t ih =>
    intro acc p hp
    simp only [List.foldl_cons] at hp
    rcases ih _ p hp with hacc | ⟨kv', hkv', rfl⟩
    · rcases mem_upsertA hacc with rfl | h2
      · right
        exact ⟨kv, List.mem_cons_self kv t, rfl⟩
      · left
        exact h2
    · right
      exact ⟨kv', List.mem_cons_of_mem _ hkv', rfl⟩

/-- The sanitized GCP map construction keeps keys distinct. -/
theorem keysNodup_foldl_gcp :
    ∀ (l acc : GTags), keysNodup acc →
      keysNodup (l.foldl
        (fun acc kv =>
          upsertA acc (sanitizeKeyForGCP kv.1) (sanitizeValueForGCP kv.2)) acc) := by
  intro l
  induction l with
  | nil => intro acc h; exact h
  | cons kv t ih =>
    intro acc h
    simp only [List.foldl_cons]
    exact ih _ (keysNodup_upsertA h _ _)

/-- Rebuilding a distinct-keyed map whose entries the sanitizers fix
reproduces the map. -/
theorem foldl_gcp_fixed :
    ∀ (l acc : GTags), keysNodup (acc ++ l) →
      (∀ kv ∈ l, sanitizeKeyForGCP kv.1 = kv.1 ∧ sanitizeValueForGCP kv.2 = kv.2) →
      l.foldl
        (fun acc kv =>
          upsertA acc (sanitizeKeyForGCP kv.1) (sanitizeValueForGCP kv.2)) acc =
        acc ++ l := by
  intro l
  induction l with
  | nil => intro acc _ _; simp
  | cons kv t ih =>
    intro acc hnd hfix
    obtain ⟨a, b⟩ := kv
    have hfa := (hfix (a, b) (List.mem_cons_self _ t)).1
    have hfb := (hfix (a, b) (List.mem_cons_self _ t)).2
    simp only [List.foldl_cons]
    rw [hfa, hfb]
    have hka : a ∉ acc.map Prod.fst := by
      unfold keysNodup at hnd
      rw [List.map_append] at hnd
      rcases List.nodup_append.mp hnd with ⟨_, _, hdisj⟩
      intro ha
      exact hdisj ha (by simp)
    have hups : upsertA acc a b = acc ++ [(a, b)] := by
      unfold upsertA
      rw [lookup_eq_none_iff.mpr hka]
      simp
    rw [hups]
    have hassoc : (acc ++ [(a, b)]) ++ t = acc ++ (a, b) :: t := by simp
    rw [ih (acc ++ [(a, b)]) (by unfold keysNodup at hnd ⊢; rwa [hassoc])
      (fun kv hkv => hfix kv (List.mem_cons_of_mem _ hkv))]
    exact hassoc

/-- Claim C2 amended: the GCP sanitizer is idempotent on every map none
of whose sanitized keys ends in '-' or '_' (in particular whenever no
key is cut by the 63-character truncation); the unrestricted statement
fails by the counterexample above. -/
theorem sanitizeGCP_idem_no_trailing (m : GTags)
    (h : ∀ kv ∈ m, endsDashUnd (sanitizeKeyForGCP kv.1) = false) :
    sanitizeLabelsForGCP (sanitizeLabelsForGCP m) = sanitizeLabelsForGCP m := by
  have hent : ∀ kv ∈ sanitizeLabelsForGCP m,
      sanitizeKeyForGCP kv.1 = kv.1 ∧ sanitizeValueForGCP kv.2 = kv.2 := by
    intro kv hkv
    rcases mem_foldl_gcp m [] kv hkv with hacc | ⟨kv', hkv', rfl⟩
    · cases hacc
    · exact ⟨sanitizeKeyForGCP_idem (h kv' hkv'), sanitizeValueForGCP_idem _⟩
  have hnd : keysNodup (sanitizeLabelsForGCP m) :=
    keysNodup_foldl_gcp m [] (by simp [keysNodup])
  have hmain := foldl_gcp_fixed (sanitizeLabelsForGCP m) [] (by simpa) hent
  simpa [sanitizeLabelsForGCP] using hmain

/-- Witness for the amended C2 at a concrete map. -/
theorem sanitizeGCP_idem_witness :
    sanitizeLabelsForGCP
        (sanitizeLabelsForGCP [(("Example/Key").data, ("Example Value").data)]) =
      sanitizeLabelsForGCP [(("Example/Key").data, ("Example Value").data)] :=
  sanitizeGCP_idem_no_trailing [(("Example/Key").data, ("Example Value").data)]
    (by decide)

/-- The two Azure sanitization error kinds (azure.go:
ErrAzureTooManyTags and ErrAzureValueToLong; Go wraps the latter in a
per-value message, the kind is what callers test with errors.Is). -/
inductive AzErr where
  | tooManyTags
  | valueTooLong
deriving DecidableEq

/-- Characters Azure forbids in tag keys (azure.go sanitizeKeyForAzure). -/
def azForbidden (c : Char) : Bool :=
  c = '<' ∨ c = '>' ∨ c = '%' ∨ c = '&' ∨ c = '\\' ∨ c = '?' ∨ c = '/'

/-- sanitizeKeyForAzure from azure.go: remove every forbidden character,
then truncate to 512 characters. -/
def sanitizeKeyForAzure (s : String) : String :=
  String.mk ((s.data.filter (fun c => !azForbidden c)).take 512)

/-- sanitizeValueForAzure from azure.go: values longer than 256
characters fail with the ValueTooLong error. -/
def sanitizeValueForAzure (s : String) : Except AzErr String :=
  if s.length > 256 then .error .valueTooLong else .ok s

/-- The per-tag loop of sanitizeLabelsForAzure: sanitize the key, fail on
the first over-long value, otherwise assign into the result map. -/
def azureFold : Tags → Tags → Except AzErr Tags
  | acc, [] => .ok acc
  | acc, kv :: t =>
    match sanitizeValueForAzure kv.2 with
    | .error e => .error e
    | .ok v => azureFold (upsertA acc (sanitizeKeyForAzure kv.1) v) t

/-- sanitizeLabelsForAzure from azure.go: more than 50 tags fail with
TooManyTags before any per-tag transform; otherwise the per-tag loop
runs. -/
def sanitizeLabelsForAzure (tags : Tags) : Except AzErr Tags :=
  if tags.length > 50 then .error .tooManyTags else azureFold [] tags

/-- The per-tag loop fails with ValueTooLong whenever some value is over
long. -/
theorem azureFold_long :
    ∀ (l acc : Tags), (∃ kv ∈ l, kv.2.length > 256) →
      azureFold acc l = .error .valueTooLong := by
  intro l
  induction l with
  | nil =>
    rintro acc ⟨kv, h, _⟩
    cases h
  | cons p t ih =>
    rintro acc ⟨kv, hm, hlen⟩
    rcases List.mem_cons.mp hm with rfl | hm'
    · have hv : sanitizeValueForAzure kv.2 = .error .valueTooLong := by
        unfold sanitizeValueForAzure
        rw [if_pos hlen]
      simp [azureFold, hv]
    · cases hv : sanitizeValueForAzure p.2 with
      | error e =>
        have he : e = .valueTooLong := by
          unfold sanitizeValueForAzure at hv
          split at hv
          · exact (Except.error.inj hv).symm
          · cases hv
        subst he
        simp [azureFold, hv]
      | ok v =>
        simp only [azureFold, hv]
        exact ih _ ⟨kv, hm', hlen⟩

/-- Claim C8: sanitizeLabelsForAzure fails with TooManyTags on more than
50 entries (the count check runs first), and with ValueTooLong when the
count check passes and some value exceeds 256 characters; an error result
carries no sanitized tag set. -/
theorem sanitizeAzure_errors (tags : Tags) :
    (tags.length > 50 → sanitizeLabelsForAzure tags = .error .tooManyTags) ∧
    (tags.length ≤ 50 → (∃ kv ∈ tags, kv.2.length > 256) →
      sanitizeLabelsForAzure tags = .error .valueTooLong) := by
  constructor
  · intro h
    unfold sanitizeLabelsForAzure
    rw [if_pos h]
  · intro h hex
    unfold sanitizeLabelsForAzure
    rw [if_neg (by omega)]
    exact azureFold_long tags [] hex

/-- A 51-entry tag map with pairwise distinct keys. -/
def az51 : Tags :=
  (List.range 51).map (fun i => (String.mk (List.replicate (i + 1) 'a'), "v"))

/-- A tag map holding one 257-character value. -/
def azLongVal : Tags := [("k", String.mk (List.replicate 257 'x'))]

set_option maxRecDepth 4096 in
/-- Witness for C8 at the two concrete inputs named by the spec. -/
theorem sanitizeAzure_errors_witness :
    sanitizeLabelsForAzure az51 = .error .tooManyTags ∧
    sanitizeLabelsForAzure azLongVal = .error .valueTooLong :=
  ⟨(sanitizeAzure_errors az51).1 (by decide),
   (sanitizeAzure_errors azLongVal).2 (by decide)
     ⟨("k", String.mk (List.replicate 257 'x')), by decide, by decide⟩⟩

/-- Result of GCP parseVolumeID (gcp.go).  `invalid` is the
"invalid volume handle format" error; `panicOOB` is the Go runtime panic
raised by an out-of-range slice index. -/
inductive GCPParse where
  | ok (project location diskName : String)
  | invalid
  | panicOOB
deriving DecidableEq

/-- parseVolumeID from gcp.go: split on '/', reject fewer than 5 fields,
then read fields 1, 3 and 5.  The guard admits inputs with exactly 5
fields, for which the access to field 5 is out of range. -/
def parseVolumeID (id : String) : GCPParse :=
  let parts := splitSep '/' id.data
  if parts.length < 5 then .invalid
  else
    match parts.get? 1, parts.get? 3, parts.get? 5 with
    | some p, some l, some n => .ok (String.mk p) (String.mk l) (String.mk n)
    | _, _, _ => .panicOOB

/-- Claim C9 refuted on the code: a well-formed 6-field handle parses, an
under-length handle errors, but a 5-field handle passes the guard and
then indexes out of range (Go panics) instead of returning. -/
theorem parseVolumeID_panic_five_fields :
    parseVolumeID "projects/p/zones/z/disks/d" = .ok "p" "z" "d" ∧
    parseVolumeID "projects/p/zones/" = .invalid ∧
    parseVolumeID "projects/p/zones/z/disks" = .panicOOB := by
  decide

/-- The storage-provisioner of a PVC (kubernetes.go getProvisionedBy):
the non-beta annotation key, falling back to the beta key. -/
def getProvisionedBy (annots : Tags) : Option String :=
  match annots.lookup "volume.kubernetes.io/storage-provisioner" with
  | some s => some s
  | none => annots.lookup "volume.beta.kubernetes.io/storage-provisioner"

/-- The Azure Disk CSI provisioner name (constant AZURE_DISK_CSI). -/
def azureDiskCSI : String := "disk.csi.azure.com"

/-- provisionedByAzureDisk from kubernetes.go: true exactly when the
provisioner annotation resolves to disk.csi.azure.com. -/
def provisionedByAzureDisk (pvc : PVC) : Bool :=
  match getProvisionedBy pvc.annots with
  | some p => p = azureDiskCSI
  | none => false

/-- One call to the Azure collaborator UpdateAzureVolumeTags: the volume,
the freshly computed tags, and the keys to remove. -/
structure AzureCall where
  volumeID : String
  newTags : Tags
  deletedKeys : List String
deriving DecidableEq

/-- The AZURE branch of the informer UpdateFunc (kubernetes.go lines
244-258), entered after processPersistentVolumeClaim succeeded with the
given resolved volumeID and tags: the code computes the deleted-key set
and calls UpdateAzureVolumeTags only under `!provisionedByAzureDisk
newPVC`. -/
def azureUpdateDispatch (render : RenderFn) (jsonParse : JsonFn)
    (cfg : Config) (oldPVC newPVC : PVC) (volumeID : String) (tags : Tags) :
    Option AzureCall :=
  if !provisionedByAzureDisk newPVC then
    let oldTags := buildTags render jsonParse cfg oldPVC
    let deleted := (oldTags.map Prod.fst).filter (fun k => !hasKey tags k)
    some ⟨volumeID, tags, deleted⟩
  else none

/-- The informer UpdateFunc in Azure mode: the three guards
(ResourceVersion unchanged, PV not yet bound, PVC terminating) followed
by tag recomputation and the AZURE dispatch.  `volumeID` is the volume
handle the (external) PV lookup of processPersistentVolumeClaim resolved
for this PVC. -/
def azureUpdateEvent (render : RenderFn) (jsonParse : JsonFn) (cfg : Config)
    (oldPVC newPVC : PVC) (volumeID : String) : Option AzureCall :=
  if newPVC.resourceVersion = oldPVC.resourceVersion then none
  else if newPVC.volumeName = "" then none
  else if newPVC.hasDeletionTS then none
  else
    azureUpdateDispatch render jsonParse cfg oldPVC newPVC volumeID
      (buildTags render jsonParse cfg newPVC)

/-- Sample Azure-mode configuration. -/
def cfgAz : Config := ⟨defaultAnnPfx, [("foo", "bar")], "json", false, []⟩

/-- Old PVC revision, provisioned by the Azure Disk CSI driver. -/
def pvcAzOld : PVC :=
  ⟨"pvc-1", "ns", [],
    [("volume.kubernetes.io/storage-provisioner", "disk.csi.azure.com")],
    "1", "pv-1", false⟩

/-- New PVC revision, identical but with a new ResourceVersion. -/
def pvcAzNew : PVC :=
  ⟨"pvc-1", "ns", [],
    [("volume.kubernetes.io/storage-provisioner", "disk.csi.azure.com")],
    "2", "pv-1", false⟩

/-- New PVC revision provisioned by the AWS EBS CSI driver instead. -/
def pvcEbsNew : PVC :=
  ⟨"pvc-1", "ns", [],
    [("volume.kubernetes.io/storage-provisioner", "ebs.csi.aws.com")],
    "2", "pv-1", false⟩

/-- Claim C1 refuted on the code: on a guard-passing update event the
Azure branch makes no UpdateAzureVolumeTags call for a PVC provisioned by
disk.csi.azure.com, yet it does make the call for a PVC provisioned by
ebs.csi.aws.com — the opposite of the claimed dispatch. -/
theorem azureDispatch_inverted :
    provisionedByAzureDisk pvcAzNew = true ∧
    azureUpdateEvent renderNone jsonEmpty cfgAz pvcAzOld pvcAzNew
        "/subscriptions/s/resourceGroups/g/providers/Microsoft.Compute/disks/d" =
      none ∧
    provisionedByAzureDisk pvcEbsNew = false ∧
    azureUpdateEvent renderNone jsonEmpty cfgAz pvcAzOld pvcEbsNew "vol-1" =
      some ⟨"vol-1", [("foo", "bar")], []⟩ := by
  decide

/-- HTML escaping of one character as Go's html/template applies to
substituted data in an HTML text context ('&', '<', '>', '"' and the
apostrophe). -/
def htmlEscapeChar (c : Char) : List Char :=
  if c = '&' then ("&amp;").data
  else if c = '<' then ("&lt;").data
  else if c = '>' then ("&gt;").data
  else if c = '"' then ("&#34;").data
  else if c = Char.ofNat 39 then ("&#39;").data
  else [c]

/-- HTML-escape a string character by character. -/
def htmlEscape (s : List Char) : List Char :=
  s.foldr (fun c acc => htmlEscapeChar c ++ acc) []

/-- Lexer state of the template renderer: literal text, or inside an
action whose body is accumulated in reverse. -/
inductive TplMode where
  | text
  | action (body : List Char)

/-- One template action over the TagTemplate fields: `.Name`,
`.Namespace`, `.Labels.<key>` and `.Annotations.<key>` (a missing map key
substitutes the empty string, Go's zero value); any other field path
fails, as Go fails executing a template referencing an unknown top-level
field. -/
def evalAction (tpl : TagTemplate) (body : List Char) : Option (List Char) :=
  if body = (".Name").data then some tpl.name.data
  else if body = (".Namespace").data then some tpl.namespc.data
  else if List.isPrefixOf (".Labels.").data body then
    some ((tpl.labels.lookup (String.mk (body.drop 8))).getD "").data
  else if List.isPrefixOf (".Annotations.").data body then
    some ((tpl.annots.lookup (String.mk (body.drop 13))).getD "").data
  else none

/-- Character-level template renderer modelling the fragment of Go's
html/template the tag values use: literal text is copied verbatim,
field substitutions are HTML-escaped (contextual autoescaping on a text
node), an unknown field or an unclosed action fails. -/
def renderGo (tpl : TagTemplate) : List Char → TplMode → Option (List Char)
  | [], .text => some []
  | [], .action _ => none
  | '{' :: '{' :: rest, .text => renderGo tpl rest (.action [])
  | c :: rest, .text =>
    match renderGo tpl rest .text with
    | some out => some (c :: out)
    | none => none
  | '}' :: '}' :: rest, .action body =>
    match evalAction tpl (trimSpace body.reverse) with
    | some v =>
      match renderGo tpl rest .text with
      | some out => some (htmlEscape v ++ out)
      | none => none
    | none => none
  | c :: rest, .action body => renderGo tpl rest (.action (c :: body))

/-- The html/template collaborator used by renderTagTemplates, modelled
per the documented escaping semantics of Go's html/template. -/
def goTemplateRender : RenderFn := fun tpl v =>
  (renderGo tpl v.data .text).map String.mk

example :
    goTemplateRender ⟨"my-pvc", "my-namespace", [], []⟩
      "\x7b\x7b .Name \x7d\x7d-\x7b\x7b .Namespace \x7d\x7d" =
    some "my-pvc-my-namespace" := by decide

example :
    goTemplateRender ⟨"my-pvc", "ns", [], []⟩ "\x7b\x7b .Blah \x7d\x7d" =
    none := by decide

example :
    goTemplateRender ⟨"p", "ns", [("TeamID", "1234")], []⟩
      "\x7b\x7b .Name \x7d\x7d-\x7b\x7b .Labels.SomeLabel \x7d\x7d" =
    some "p-" := by decide

/-- A PVC whose label "lk" and whose annotation "ak" both hold s. -/
def pvcTpl (s : String) : PVC :=
  ⟨"p", "ns", [("lk", s)], [("ak", s)], "1", "pv", false⟩

/-- Claim C10: through renderTagTemplates with the html/template engine,
a tag value that is a single `.Annotations` or `.Labels` substitution
stores the HTML-escaped referenced string, and on 'a&b' the stored value
is 'a&amp;b'. -/
theorem goTemplate_html_escapes (s : String) :
    renderTagTemplates goTemplateRender (pvcTpl s)
        [("a", "\x7b\x7b .Annotations.ak \x7d\x7d"),
         ("l", "\x7b\x7b .Labels.lk \x7d\x7d")] =
      [("a", String.mk (htmlEscape s.data)),
       ("l", String.mk (htmlEscape s.data))] ∧
    String.mk (htmlEscape ("a&b").data) = "a&amp;b" := by
  constructor
  · have ha : goTemplateRender (tplOf (pvcTpl s))
        "\x7b\x7b .Annotations.ak \x7d\x7d" =
        some (String.mk (htmlEscape s.data ++ [])) := rfl
    have hl : goTemplateRender (tplOf (pvcTpl s))
        "\x7b\x7b .Labels.lk \x7d\x7d" =
        some (String.mk (htmlEscape s.data ++ [])) := rfl
    simp [renderTagTemplates, ha, hl]
  · decide
